import Mathlib

/-!
Verification development for the `home-infrastructure` REST API repository.

This file gives a shallow embedding, in Lean, of the middleware and logging
core of `src/functions/api/src`:

* `src/middleware/request_extractor.py` — tenant routing middleware,
* `src/middleware/request_logger.py` — observability middleware,
* `src/utils/logger.py` — payload sanitizer, detail builder, JSON formatter,
* `src/middleware/exception.py` — error translator.

Python values of JSON-like shape are embedded as `PyVal`; Python `dict`s
become association lists in insertion order; Python `bytes` become `List Nat`;
Python exceptions become the `Except` monad, erroring with the text of
`str(exception)`.  Primitive library operations whose internals live outside
this repository (`bytes.decode`, `json.loads`, `json.dumps`, `uuid4`) are
collected in a `PyPrims` parameter block; everything written in the
repository itself is translated as an executable Lean definition.
-/

/-- A Python value of JSON-like shape, as manipulated by the logging core.
`PyVal.none` embeds Python `None`.  Dictionaries are association lists in
insertion order, with string keys (as produced by `json.loads`). -/
inductive PyVal where
  | none
  | str (s : List Char)
  | int (n : Int)
  | bool (b : Bool)
  | dict (d : List (String × PyVal))
  | list (l : List PyVal)

/-- Python `value is None` test. -/
def isNone : PyVal → Bool
  | .none => true
  | _ => false

/-! ## Payload sanitizer — `Logger._format_payload` in `src/utils/logger.py` -/

/-- `Logger.trim_properties`: keys whose long string values are truncated. -/
def trimProperties : List String := ["file_content", "text", "url"]

/-- `Logger.mask_properties`: keys whose values are replaced outright. -/
def maskProperties : List String := ["password", "access_token", "refresh_token", "id_token"]

/-- The body of `_format_payload`'s loop for a single dictionary entry: first
the trim branch (`key in trim_properties and isinstance(payload[key], str)
and len(payload[key]) > 100`), then the mask branch (`key in
mask_properties`), each assigning in place. -/
def formatEntry (k : String) (v : PyVal) : PyVal :=
  let v1 : PyVal :=
    if k ∈ trimProperties then
      match v with
      | .str s => if s.length > 100 then .str (s.take 100 ++ "...".toList) else .str s
      | w => w
    else v
  if k ∈ maskProperties then .str "[masked]".toList else v1

/-- Whether iterating `for key in payload` over a Python list hits an element
that is a string belonging to the trim or mask key sets; for such an element
the subsequent `payload[key]` subscription with a string key raises
`TypeError`. -/
def listElemRaises : PyVal → Bool
  | .str s => trimProperties.any (fun p => p.toList = s) || maskProperties.any (fun p => p.toList = s)
  | _ => false

/-- `Logger._format_payload`.  `None` is returned unchanged; a dictionary has
each entry rewritten by `formatEntry`; iterating a string yields its
one-character substrings, none of which equals a multi-character property
name, so strings pass unchanged; iterating a list raises `TypeError` as soon
as `payload[key]` is subscripted with a string element, and iterating a
non-iterable (`int`, `bool`) raises `TypeError` immediately. -/
def formatPayload : PyVal → Except (List Char) PyVal
  | .none => .ok .none
  | .dict d => .ok (.dict (d.map (fun p => (p.1, formatEntry p.1 p.2))))
  | .str s => .ok (.str s)
  | .list l =>
    if l.any listElemRaises then .error "TypeError".toList else .ok (.list l)
  | .int _ => .error "TypeError".toList
  | .bool _ => .error "TypeError".toList

/-! ## JSON log formatter — `JSONFormatter` in `src/utils/logger.py` -/

mutual
/-- `JSONFormatter._extract_value`: a dictionary is rebuilt keeping only
entries whose value is not `None`, recursing into kept values; every other
value (including lists) is returned unchanged. -/
def extractValue : PyVal → PyVal
  | .dict d => .dict (extractEntries d)
  | v => v

/-- The dictionary comprehension inside `_extract_value`. -/
def extractEntries : List (String × PyVal) → List (String × PyVal)
  | [] => []
  | (k, v) :: rest =>
    if isNone v then extractEntries rest
    else (k, extractValue v) :: extractEntries rest
end

/-- `JSONFormatter.process_log_record`: drop `None`-valued top-level entries
of the record and pass each kept value through `_extract_value`. -/
def processLogRecord : List (String × PyVal) → List (String × PyVal)
  | [] => []
  | (k, v) :: rest =>
    if isNone v then processLogRecord rest
    else (k, extractValue v) :: processLogRecord rest

mutual
/-- No `None`-valued dictionary entry is reachable from this value by
descending through dictionary values only (lists are not entered). -/
def dictChainNullFree : PyVal → Bool
  | .dict d => dictChainNullFreeEntries d
  | _ => true

/-- Entry-list form of `dictChainNullFree`. -/
def dictChainNullFreeEntries : List (String × PyVal) → Bool
  | [] => true
  | (_, v) :: rest => !isNone v && dictChainNullFree v && dictChainNullFreeEntries rest
end

mutual
/-- Some dictionary reachable anywhere inside this value (including through
lists) has a `None`-valued entry. -/
def hasNullEntry : PyVal → Bool
  | .dict d => hasNullEntryEntries d
  | .list l => hasNullEntryItems l
  | _ => false

/-- Entry-list form of `hasNullEntry`. -/
def hasNullEntryEntries : List (String × PyVal) → Bool
  | [] => false
  | (_, v) :: rest => isNone v || hasNullEntry v || hasNullEntryEntries rest

/-- Item-list form of `hasNullEntry`. -/
def hasNullEntryItems : List PyVal → Bool
  | [] => false
  | v :: rest => hasNullEntry v || hasNullEntryItems rest
end

/-! ## Requests and the structured logger — `Logger` in `src/utils/logger.py` -/

/-- The pieces of a FastAPI/Starlette request read by the logging core:
`request.method`, `str(request.url)` (the full URL), `request.url.path`,
the (lower-cased, per ASGI) header mapping, and the raw body bytes. -/
structure Request where
  method : String
  url : String
  path : String
  headers : List (String × String)
  body : List Nat

/-- `request.headers.get(k)` embedded on the association list: the value as a
`PyVal` string, or `PyVal.none` when the header is absent. -/
def headerVal (req : Request) (k : String) : PyVal :=
  match List.lookup k req.headers with
  | Option.some v => .str v.toList
  | Option.none => .none

/-- `Logger._populate_detail`: the detail dictionary in literal order.  The
`target` entry is `f"{method} {url}"` built from the full URL string, and the
`payload` entry is the sanitized payload; building the dictionary propagates
any `TypeError` raised by `_format_payload`. -/
def populateDetail (serviceName : String) (req : Request) (payload : PyVal) :
    Except (List Char) (List (String × PyVal)) :=
  (formatPayload payload).map (fun fp =>
    [("service_name", .str serviceName.toList),
     ("target", .str (req.method ++ " " ++ req.url).toList),
     ("payload", fp),
     ("x-forwarded-for", headerVal req "x-forwarded-for"),
     ("request_id", headerVal req "request_id")])

/-- One record handed to the logging backend: the message string and the
`detail` mapping passed via `extra`. -/
structure LogEvent where
  message : String
  detail : List (String × PyVal)

/-- `Logger.info`: suppressed entirely when `request.url.path` is
`"/openapi.json"`, otherwise emits exactly one record. -/
def loggerInfo (serviceName : String) (req : Request) (payload : PyVal) (message : String) :
    Except (List Char) (List LogEvent) :=
  if req.path = "/openapi.json" then .ok []
  else (populateDetail serviceName req payload).map (fun d => [⟨message, d⟩])

/-- `Logger.error`: always emits exactly one record. -/
def loggerError (serviceName : String) (req : Request) (payload : PyVal) (message : String) :
    Except (List Char) (List LogEvent) :=
  (populateDetail serviceName req payload).map (fun d => [⟨message, d⟩])

/-! ## Observability middleware — `RequestLogger` in `src/middleware/request_logger.py` -/

/-- How `json.loads` can fail: `JSONDecodeError` (caught by
`_serialize_data`) or any other error such as `UnicodeDecodeError` on
undecodable bytes (not caught there). -/
inductive LoadExc where
  | jsonDecode (msg : List Char)
  | other (msg : List Char)

/-- The primitive Python library operations used by the middleware, whose
implementations live outside this repository: `bytes.decode()`, `json.loads`
on bytes and on strings, the `json.dumps` rendering done by `JSONResponse`,
and the `uuid4` drawn for the current request. -/
structure PyPrims where
  decode : List Nat → Except (List Char) (List Char)
  loads : List Nat → Except LoadExc PyVal
  loadsStr : List Char → Except LoadExc PyVal
  dumps : PyVal → List Nat
  uuid : String

/-- The pieces of a Starlette response visible to the middleware: status
code, headers, the drained body chunks, and — for responses built by
`JSONResponse` — the structured content the body was rendered from. -/
structure Response where
  status : Nat
  headers : List (String × String)
  chunks : List (List Nat)
  jsonContent : Option PyVal

/-- `JSONResponse(content, status_code)`: renders the content once via
`json.dumps` into a single body chunk. -/
def jsonResponse (prims : PyPrims) (content : PyVal) (status : Nat) : Response :=
  { status := status
    headers := [("content-type", "application/json")]
    chunks := [prims.dumps content]
    jsonContent := Option.some content }

/-- `MutableHeaders.__setitem__`: replace an existing header entry, else
append one. -/
def setHeader (hs : List (String × String)) (k v : String) : List (String × String) :=
  if hs.any (fun p => p.1 = k) then hs.map (fun p => if p.1 = k then (k, v) else p)
  else hs ++ [(k, v)]

/-- The media type examined by `_get_request_body`:
`headers.get("content-type", "").split(";")[0]`. -/
def mediaType (s : String) : List Char := s.toList.takeWhile (fun c => c ≠ ';')

/-- `RequestLogger._get_request_body`: the body bytes are captured only when
a content type is present, and its media type is non-empty (Python
truthiness) and differs from `multipart/form-data`; otherwise `None`. -/
def getRequestBody (req : Request) : Option (List Nat) :=
  let ct := mediaType ((List.lookup "content-type" req.headers).getD "")
  if ct ≠ [] ∧ ct ≠ "multipart/form-data".toList then Option.some req.body else Option.none

/-- `RequestLogger._serialize_data` applied to the captured request bytes:
`json.loads(data) if data else None`, catching only `JSONDecodeError`; any
other `json.loads` failure escapes. -/
def serializeDataBytes (prims : PyPrims) (data : Option (List Nat)) :
    Except (List Char) PyVal :=
  match data with
  | Option.none => .ok .none
  | Option.some b =>
    if b = [] then .ok .none
    else
      match prims.loads b with
      | .ok v => .ok v
      | .error (.jsonDecode _) => .ok .none
      | .error (.other m) => .error m

/-- `RequestLogger._serialize_data` applied to a decoded string:
`json.loads(data) if data else None`, catching only `JSONDecodeError`. -/
def serializeDataStr (prims : PyPrims) (s : List Char) : Except (List Char) PyVal :=
  if s = [] then .ok .none
  else
    match prims.loadsStr s with
    | .ok v => .ok v
    | .error (.jsonDecode _) => .ok .none
    | .error (.other m) => .error m

/-- The body inspection inside `_log_response`'s `try` block, after the drain:
`_serialize_data(response_body[0].decode()) if response_body else None`.  Any
raised error produces the `Except.error` branch. -/
def inspectBody (prims : PyPrims) (chunks : List (List Nat)) : Except (List Char) PyVal :=
  match chunks with
  | [] => .ok .none
  | c :: _ =>
    match prims.decode c with
    | .error m => .error m
    | .ok s => serializeDataStr prims s

/-- The replacement body built in `_log_response`'s `except` branch, in
literal key order; note the camel-case `errorCode` key and the
`f"{method}|{url}"` target built from the full URL. -/
def errorEnvelope (req : Request) (msg : List Char) : List (String × PyVal) :=
  [("errorCode", .str "InternalServerError".toList),
   ("message", .str "Something went wrong!".toList),
   ("detail", .str msg),
   ("target", .str (req.method ++ "|" ++ req.url).toList)]

/-- `RequestLogger._log_response`: drain the chunks (re-wrapping them
unchanged), inspect the first one; on any error in that block replace the
response with a 500 `JSONResponse` around `errorEnvelope`; then emit the
`client_sent_response` record through `Logger.info`, whose own failure
escapes. -/
def logResponse (prims : PyPrims) (serviceName : String) (req : Request) (resp : Response) :
    Except (List Char) (List LogEvent × Response) :=
  match inspectBody prims resp.chunks with
  | .ok serialized =>
    (loggerInfo serviceName req serialized "client_sent_response").map (fun evs => (evs, resp))
  | .error m =>
    (loggerInfo serviceName req (.dict (errorEnvelope req m)) "client_sent_response").map
      (fun evs => (evs, jsonResponse prims (.dict (errorEnvelope req m)) 500))

/-- The request half of `RequestLogger._log_request`: capture and serialize
the request body, then emit the `client_received_request` record. -/
def receivedPhase (prims : PyPrims) (serviceName : String) (req : Request) :
    Except (List Char) (List LogEvent) :=
  (serializeDataBytes prims (getRequestBody req)).bind (fun serialized =>
    loggerInfo serviceName req serialized "client_received_request")

/-- Outcome of running the observability middleware on one request: the
records emitted so far together with either the delivered response or an
escaped Python exception. -/
inductive RunResult where
  | ok (events : List LogEvent) (resp : Response)
  | exc (events : List LogEvent) (msg : List Char)

/-- The records emitted during a run. -/
def RunResult.events : RunResult → List LogEvent
  | .ok evs _ => evs
  | .exc evs _ => evs

/-- The delivered response of a run, when no exception escaped. -/
def RunResult.delivered : RunResult → Option Response
  | .ok _ resp => Option.some resp
  | .exc _ _ => Option.none

/-- `RequestLogger._log_request` (the entry point `log_request` merely
delegates to it): assign the request id, log the request, call the handler,
log (and possibly replace) the response, and attach the `request_id` header
to whatever response is delivered. -/
def logRequestRun (prims : PyPrims) (serviceName : String)
    (handler : Request → Response) (req : Request) : RunResult :=
  match receivedPhase prims serviceName req with
  | .error m => .exc [] m
  | .ok evs1 =>
    match logResponse prims serviceName req (handler req) with
    | .error m => .exc evs1 m
    | .ok (evs2, resp) =>
      .ok (evs1 ++ evs2) { resp with headers := setHeader resp.headers "request_id" prims.uuid }

/-! ## Tenant routing middleware — `src/middleware/request_extractor.py` -/

/-- `RequestExtractorMiddleware.allowed_endpoints`. -/
def allowedEndpoints : List String := ["/health", "/service", "/docs", "/openapi.json"]

/-- Python `re.match` of the compiled pattern
`^(?P<id>[^.]+)\.{re.escape(api_host)}$` against a hostname, returning the
`id` group.  `[^.]+` is a non-empty run of dot-free characters, which forces
the id to be the segment before the first dot; the escaped api host is a
literal; and `$` accepts the end of the string or a position just before a
single trailing newline. -/
def patternMatch (apiHost hostname : List Char) : Option (List Char) :=
  match hostname.dropWhile (fun c => c ≠ '.') with
  | [] => Option.none
  | _ :: tail =>
    if hostname.takeWhile (fun c => c ≠ '.') ≠ [] ∧ (tail = apiHost ∨ tail = apiHost ++ ['\n'])
    then Option.some (hostname.takeWhile (fun c => c ≠ '.'))
    else Option.none

/-- Outcome of `RequestExtractorMiddleware.dispatch` before `call_next`:
either the request proceeds (with `request.state.id` set to the captured
tenant when validation ran), or `HTTPNotFoundError(error_code, message)` is
raised, or `pattern.match(None)` raises `TypeError` because the hostname is
absent. -/
inductive ExtractorResult where
  | proceed (tenant : Option (List Char))
  | notFound (errorCode message : String)
  | typeError
deriving DecidableEq

/-- `RequestExtractorMiddleware.dispatch`: allow-listed paths skip
validation entirely; otherwise the hostname is matched, a missing hostname
reaching `pattern.match` raises `TypeError`, a failed match raises
`HTTPNotFoundError(error_code="ApplicationMissing", message="Application id
not found.")`, and a successful match stores the id and proceeds. -/
def dispatch (apiHost : List Char) (path : String) (hostname : Option (List Char)) :
    ExtractorResult :=
  if path ∈ allowedEndpoints then .proceed Option.none
  else
    match hostname with
    | Option.none => .typeError
    | Option.some h =>
      match patternMatch apiHost h with
      | Option.none => .notFound "ApplicationMissing" "Application id not found."
      | Option.some t => .proceed (Option.some t)

/-! ## Error translator — `exception_handler` in `src/middleware/exception.py` -/

/-- Modelled from the spec: the typed application error class `HTTPError` of
`src/common/error/http.py` is not under `src/` (only its test
`test/common/error/http_test.py` is).  Per the spec's Data Model, a Typed
Application Error "carries an HTTP status code, error_code, message, and
optional detail", and the test asserts exactly those attributes. -/
structure HTTPErrorModel where
  httpStatus : Nat
  errorCode : String
  message : String
  detail : PyVal

/-- `exception_handler`: build the envelope dictionary in literal order with
`target = f"{method}|{url.path}"`, log it once via `Logger.error` (message
defaulting to `"event"`) with service name `home-infrastructure`, and return
`JSONResponse(content=response, status_code=exception.http_status)`. -/
def exceptionHandler (prims : PyPrims) (req : Request) (exc : HTTPErrorModel) :
    Except (List Char) (List LogEvent × Response) :=
  let envelope : List (String × PyVal) :=
    [("error_code", .str exc.errorCode.toList),
     ("message", .str exc.message.toList),
     ("detail", exc.detail),
     ("target", .str (req.method ++ "|" ++ req.path).toList)]
  (loggerError "home-infrastructure" req (.dict envelope) "event").map
    (fun evs => (evs, jsonResponse prims (.dict envelope) exc.httpStatus))

/-! ## Concrete fixtures used by witnesses and counterexamples -/

/-- A string value longer than 100 characters (the shape the trim branch of
`_format_payload` rewrites). -/
def isLongStr : PyVal → Bool
  | .str s => decide (100 < s.length)
  | _ => false

/-- Primitive operations whose `bytes.decode` always raises, driving
`_log_response` into its `except` branch. -/
def failingPrims : PyPrims :=
  { decode := fun _ => .error "decode error".toList
    loads := fun _ => .error (.jsonDecode [])
    loadsStr := fun _ => .error (.jsonDecode [])
    dumps := fun _ => []
    uuid := "test-uuid" }

/-- Primitive operations whose `bytes.decode` succeeds with an empty string
and whose `json.loads` reports `JSONDecodeError` (handled as `None`). -/
def okPrims : PyPrims :=
  { decode := fun _ => .ok []
    loads := fun _ => .error (.jsonDecode [])
    loadsStr := fun _ => .error (.jsonDecode [])
    dumps := fun _ => []
    uuid := "test-uuid" }

/-- A plain `GET /test` request with a JSON content type and forwarding and
correlation headers, mirroring the repository's test fixtures. -/
def sampleReq : Request :=
  { method := "GET"
    url := "http://testserver/test"
    path := "/test"
    headers := [("content-type", "application/json"),
                ("x-forwarded-for", "1.2.3.4"),
                ("request_id", "abcd-1234")]
    body := [123, 125] }

/-- A request to the suppressed documentation path. -/
def openapiReq : Request :=
  { method := "GET"
    url := "http://testserver/openapi.json"
    path := "/openapi.json"
    headers := []
    body := [] }

/-- A request with a non-empty body but no `content-type` header. -/
def noCTReq : Request :=
  { method := "POST"
    url := "http://testserver/x"
    path := "/x"
    headers := [("accept", "application/json")]
    body := [49] }

/-- A fixed successful handler response with one body chunk. -/
def plainResp : Response :=
  { status := 200
    headers := [("content-type", "application/json")]
    chunks := [[104, 105]]
    jsonContent := Option.none }

/-- A handler returning `plainResp` for every request. -/
def constHandler : Request → Response := fun _ => plainResp

/-! ## Helper lemmas about the sanitizer -/

theorem mem_trim_not_mask {k : String} (hk : k ∈ trimProperties) : k ∉ maskProperties := by
  fin_cases hk <;> decide

theorem formatEntry_of_mask {k : String} (v : PyVal) (hk : k ∈ maskProperties) :
    formatEntry k v = PyVal.str "[masked]".toList := by
  simp [formatEntry, hk]

theorem formatEntry_of_trim_long {k : String} (s : List Char) (hk : k ∈ trimProperties)
    (hlen : 100 < s.length) :
    formatEntry k (PyVal.str s) = PyVal.str (s.take 100 ++ "...".toList) := by
  simp [formatEntry, hk, mem_trim_not_mask hk, hlen]

theorem formatEntry_of_other {k : String} (v : PyVal) (hm : k ∉ maskProperties)
    (ho : ¬(k ∈ trimProperties ∧ isLongStr v = true)) :
    formatEntry k v = v := by
  by_cases ht : k ∈ trimProperties
  · cases v with
    | str s =>
      have hs : ¬(100 < s.length) := by
        intro h100
        exact ho ⟨ht, by simp [isLongStr, h100]⟩
      simp [formatEntry, hm, ht, hs]
    | _ => simp_all [formatEntry, isLongStr]
  · cases v <;> simp [formatEntry, hm, ht]

theorem formatEntry_idem (k : String) (v : PyVal) :
    formatEntry k (formatEntry k v) = formatEntry k v := by
  by_cases hm : k ∈ maskProperties
  · rw [formatEntry_of_mask v hm, formatEntry_of_mask _ hm]
  · by_cases hlong : k ∈ trimProperties ∧ isLongStr v = true
    · obtain ⟨ht, hl⟩ := hlong
      obtain ⟨s, rfl⟩ : ∃ s, v = PyVal.str s := by
        cases v with
        | str s => exact ⟨s, rfl⟩
        | _ => simp [isLongStr] at hl
      have h100 : 100 < s.length := by simpa [isLongStr] using hl
      rw [formatEntry_of_trim_long s ht h100]
      have htake : (s.take 100).length = 100 := by
        simp [List.length_take]
        omega
      have hlen2 : 100 < (s.take 100 ++ "...".toList).length := by
        simp [List.length_append, htake]
      rw [formatEntry_of_trim_long _ ht hlen2, List.take_left' htake]
    · have hother := formatEntry_of_other v hm hlong
      rw [hother, hother]

/-- C5: for every mapping payload the sanitizer rewrites each entry
independently: keys in the mask set get the literal `[masked]`; keys in the
trim set whose value is a string longer than 100 characters get the first
100 characters plus `...`; every other entry is unchanged; and a `None`
payload yields `None` without error. -/
theorem c5_sanitizer_rules :
    formatPayload PyVal.none = Except.ok PyVal.none
    ∧ (∀ d : List (String × PyVal),
        formatPayload (PyVal.dict d)
          = Except.ok (PyVal.dict (d.map (fun p => (p.1, formatEntry p.1 p.2)))))
    ∧ (∀ (k : String) (v : PyVal), k ∈ maskProperties →
        formatEntry k v = PyVal.str "[masked]".toList)
    ∧ (∀ (k : String) (s : List Char), k ∈ trimProperties → 100 < s.length →
        formatEntry k (PyVal.str s) = PyVal.str (s.take 100 ++ "...".toList))
    ∧ (∀ (k : String) (v : PyVal), k ∉ maskProperties →
        ¬(k ∈ trimProperties ∧ isLongStr v = true) → formatEntry k v = v) := by
  exact ⟨rfl, fun d => rfl, fun k v hk => formatEntry_of_mask v hk,
    fun k s hk h => formatEntry_of_trim_long s hk h,
    fun k v hm ho => formatEntry_of_other v hm ho⟩

/-- Witness for C5 at concrete inputs: a password is masked, a 105-character
text is trimmed to 100 characters plus the marker, and an ordinary key is
untouched. -/
theorem c5_witness :
    formatEntry "password" (PyVal.str "secret".toList) = PyVal.str "[masked]".toList
    ∧ formatEntry "text" (PyVal.str (List.replicate 105 'a'))
        = PyVal.str (List.replicate 100 'a' ++ "...".toList)
    ∧ formatEntry "key" (PyVal.str "value".toList) = PyVal.str "value".toList := by
  refine ⟨c5_sanitizer_rules.2.2.1 "password" _ (by decide), ?_,
    c5_sanitizer_rules.2.2.2.2 "key" _ (by decide) (by decide)⟩
  rw [c5_sanitizer_rules.2.2.2.1 "text" (List.replicate 105 'a') (by decide) (by decide)]
  exact congrArg PyVal.str (by decide)

/-- C6: the sanitizer is idempotent on mapping payloads: sanitizing an
already-sanitized mapping returns it unchanged. -/
theorem c6_sanitizer_idempotent (d : List (String × PyVal)) :
    (formatPayload (PyVal.dict d)).bind formatPayload = formatPayload (PyVal.dict d) := by
  show Except.ok (PyVal.dict ((d.map (fun p => (p.1, formatEntry p.1 p.2))).map
      (fun p => (p.1, formatEntry p.1 p.2)))) = _
  rw [List.map_map]
  refine congrArg (fun l => Except.ok (PyVal.dict l)) (List.map_congr_left ?_)
  intro p _
  simp [Function.comp, formatEntry_idem]

/-! ## Helper lemmas about the JSON formatter -/

theorem isNone_extractValue (v : PyVal) : isNone (extractValue v) = isNone v := by
  cases v <;> rfl

theorem extractValue_dictChainNullFree (v : PyVal) :
    dictChainNullFree (extractValue v) = true := by
  refine extractValue.induct
    (fun v => dictChainNullFree (extractValue v) = true)
    (fun d => dictChainNullFreeEntries (extractEntries d) = true)
    ?_ ?_ rfl ?_ ?_ v
  · intro d h
    simpa [extractValue, dictChainNullFree] using h
  · intro w hw
    cases w with
    | dict d => exact absurd rfl (hw d)
    | _ => rfl
  · intro k w rest hn ih
    simpa [extractEntries, hn] using ih
  · intro k w rest hn h1 ih
    have hn' : isNone w = false := by
      exact Bool.not_eq_true _ ▸ eq_false_of_ne_true hn
    simp [extractEntries, hn', dictChainNullFreeEntries, isNone_extractValue, h1, ih]

/-- C10: the claim as it fails on the code.  The `_extract_value` recursion
descends only into dictionary values, not into lists, so a `None`-valued
entry of a mapping nested inside a list survives `process_log_record` and a
null reaches the emitted line. -/
theorem c10_counterexample :
    hasNullEntryEntries (processLogRecord
      [("message", PyVal.str "request".toList),
       ("detail", PyVal.dict [("items", PyVal.list [PyVal.dict [("b", PyVal.none)]])]),
       ("timestamp", PyVal.int 1)]) = true := rfl

/-- C10 (amended): `process_log_record` removes `None`-valued entries at the
top level of the record and recursively at every nesting depth reachable
through dictionary values alone; values inside lists are not processed. -/
theorem c10_formatter_null_removal :
    ∀ rec : List (String × PyVal),
      (processLogRecord rec).all (fun p => !isNone p.2 && dictChainNullFree p.2) = true := by
  intro rec
  induction rec with
  | nil => rfl
  | cons p rest ih =>
    obtain ⟨k, v⟩ := p
    by_cases hn : isNone v = true
    · simpa [processLogRecord, hn] using ih
    · have hn' : isNone v = false := by
        exact Bool.not_eq_true _ ▸ eq_false_of_ne_true hn
      simp [processLogRecord, hn', List.all_cons, isNone_extractValue,
        extractValue_dictChainNullFree, ih]

/-! ## Helper lemmas about the hostname pattern -/

theorem dropWhile_head_dot (l : List Char) (c : Char) (tail : List Char)
    (h : l.dropWhile (fun c => c ≠ '.') = c :: tail) : c = '.' := by
  induction l with
  | nil => simp [List.dropWhile] at h
  | cons a as ih =>
    by_cases ha : a = '.'
    · rw [List.dropWhile_cons_of_neg (by simp [ha])] at h
      injection h with h1 h2
      exact h1.symm.trans ha
    · rw [List.dropWhile_cons_of_pos (by simp [ha])] at h
      exact ih h

theorem split_of_append (t r : List Char) (ht : '.' ∉ t) :
    (t ++ '.' :: r).takeWhile (fun c => c ≠ '.') = t
    ∧ (t ++ '.' :: r).dropWhile (fun c => c ≠ '.') = '.' :: r := by
  induction t with
  | nil =>
    constructor
    · rw [List.nil_append, List.takeWhile_cons_of_neg (by simp)]
    · rw [List.nil_append, List.dropWhile_cons_of_neg (by simp)]
  | cons a as ih =>
    have ha : a ≠ '.' := fun hh => ht (hh ▸ List.mem_cons_self a as)
    obtain ⟨ih1, ih2⟩ := ih (fun hh => ht (List.mem_cons_of_mem a hh))
    constructor
    · rw [List.cons_append, List.takeWhile_cons_of_pos (by simp [ha]), ih1]
    · rw [List.cons_append, List.dropWhile_cons_of_pos (by simp [ha]), ih2]

theorem patternMatch_eq_some_iff (a h t : List Char) :
    patternMatch a h = Option.some t ↔
      t ≠ [] ∧ '.' ∉ t ∧ (h = t ++ '.' :: a ∨ h = t ++ '.' :: (a ++ ['\n'])) := by
  constructor
  · intro he
    unfold patternMatch at he
    split at he
    · exact absurd he (by simp)
    · rename_i c tail hrest
      split at he
      · rename_i hcond
        have hpre : h.takeWhile (fun c => c ≠ '.') = t := Option.some.inj he
        have hc : c = '.' := dropWhile_head_dot h c tail hrest
        have hsplit : h.takeWhile (fun c => c ≠ '.') ++ h.dropWhile (fun c => c ≠ '.') = h :=
          List.takeWhile_append_dropWhile _ h
        refine ⟨hpre ▸ hcond.1, ?_, ?_⟩
        · intro hdot
          have hmem : '.' ∈ h.takeWhile (fun c => c ≠ '.') := hpre ▸ hdot
          have := List.mem_takeWhile_imp hmem
          simp at this
        · rcases hcond.2 with hta | hta
          · exact Or.inl (by rw [← hsplit, hrest, hpre, hc, hta])
          · exact Or.inr (by rw [← hsplit, hrest, hpre, hc, hta])
      · exact absurd he (by simp)
  · rintro ⟨hne, hdot, hform | hform⟩
    · obtain ⟨h1, h2⟩ := split_of_append t a hdot
      subst hform
      unfold patternMatch
      rw [h2]
      show (if (t ++ '.' :: a).takeWhile (fun c => c ≠ '.') ≠ [] ∧ (a = a ∨ a = a ++ ['\n'])
        then Option.some ((t ++ '.' :: a).takeWhile (fun c => c ≠ '.')) else Option.none)
        = Option.some t
      rw [h1, if_pos ⟨hne, Or.inl rfl⟩]
    · obtain ⟨h1, h2⟩ := split_of_append t (a ++ ['\n']) hdot
      subst hform
      unfold patternMatch
      rw [h2]
      show (if (t ++ '.' :: (a ++ ['\n'])).takeWhile (fun c => c ≠ '.') ≠ []
          ∧ (a ++ ['\n'] = a ∨ a ++ ['\n'] = a ++ ['\n'])
        then Option.some ((t ++ '.' :: (a ++ ['\n'])).takeWhile (fun c => c ≠ '.'))
        else Option.none) = Option.some t
      rw [h1, if_pos ⟨hne, Or.inr rfl⟩]

theorem patternMatch_eq_none_of_not_form (a h : List Char)
    (hn : ¬ ∃ t, t ≠ [] ∧ '.' ∉ t ∧ (h = t ++ '.' :: a ∨ h = t ++ '.' :: (a ++ ['\n']))) :
    patternMatch a h = Option.none := by
  cases hp : patternMatch a h with
  | none => rfl
  | some t => exact absurd ⟨t, (patternMatch_eq_some_iff a h t).1 hp⟩ hn

/-- C1: the claim as it fails on the code.  Because Python's `$` anchor also
matches just before a single trailing newline, the host
`"evil.example.com\n"` — which is not of the exact form
`tenant.configured-api-host` — is accepted by the middleware, which stores
tenant `"evil"` and continues instead of failing with `ApplicationMissing`. -/
theorem c1_counterexample :
    dispatch "example.com".toList "/v1/sources" (Option.some "evil.example.com\n".toList)
      = ExtractorResult.proceed (Option.some "evil".toList)
    ∧ ¬ ∃ t, t ≠ [] ∧ '.' ∉ t
        ∧ "evil.example.com\n".toList = t ++ '.' :: "example.com".toList := by
  constructor
  · decide
  · rintro ⟨t, hne, hdot, heq⟩
    have hlen : t.length = 5 := by
      have h17 : ("evil.example.com\n".toList).length = 17 := by decide
      have := congrArg List.length heq
      rw [h17] at this
      simp [List.length_append, List.length_cons] at this
      have h11 : ("example.com".toList).length = 11 := by decide
      omega
    have ht : t = "evil.".toList := by
      have h1 : ("evil.example.com\n".toList).take t.length = t := by
        rw [heq]
        exact List.take_left t _
      rw [hlen] at h1
      rw [← h1]
      decide
    exact hdot (by rw [ht]; decide)

/-- C1 (amended): for non-allow-listed paths, a host of the exact form
`tenant.configured-api-host` with a non-empty dot-free tenant proceeds with
that tenant stored; so does — contrary to the original claim — the same form
followed by one trailing newline (Python `$` semantics); every other
non-missing host fails with the `ApplicationMissing` not-found error; and
allow-listed paths always pass regardless of host. -/
theorem c1_tenant_routing :
    (∀ (a : List Char) (path : String) (t : List Char), path ∉ allowedEndpoints →
        t ≠ [] → '.' ∉ t →
        dispatch a path (Option.some (t ++ '.' :: a))
          = ExtractorResult.proceed (Option.some t))
    ∧ (∀ (a : List Char) (path : String) (t : List Char), path ∉ allowedEndpoints →
        t ≠ [] → '.' ∉ t →
        dispatch a path (Option.some (t ++ '.' :: (a ++ ['\n'])))
          = ExtractorResult.proceed (Option.some t))
    ∧ (∀ (a : List Char) (path : String) (h : List Char), path ∉ allowedEndpoints →
        (¬ ∃ t, t ≠ [] ∧ '.' ∉ t ∧ (h = t ++ '.' :: a ∨ h = t ++ '.' :: (a ++ ['\n']))) →
        dispatch a path (Option.some h)
          = ExtractorResult.notFound "ApplicationMissing" "Application id not found.")
    ∧ (∀ (a : List Char) (path : String) (ho : Option (List Char)),
        path ∈ allowedEndpoints → dispatch a path ho = ExtractorResult.proceed Option.none) := by
  refine ⟨?_, ?_, ?_, ?_⟩
  · intro a path t hpath hne hdot
    have hm : patternMatch a (t ++ '.' :: a) = Option.some t :=
      (patternMatch_eq_some_iff a _ t).2 ⟨hne, hdot, Or.inl rfl⟩
    simp [dispatch, hpath, hm]
  · intro a path t hpath hne hdot
    have hm : patternMatch a (t ++ '.' :: (a ++ ['\n'])) = Option.some t :=
      (patternMatch_eq_some_iff a _ t).2 ⟨hne, hdot, Or.inr rfl⟩
    simp [dispatch, hpath, hm]
  · intro a path h hpath hn
    have hm := patternMatch_eq_none_of_not_form a h hn
    simp [dispatch, hpath, hm]
  · intro a path ho hpath
    simp [dispatch, hpath]

/-- Witness for C1 at concrete inputs: `tenant.example.com` proceeds with
tenant `"tenant"`, the dot-free host `"tenant"` fails with
`ApplicationMissing`, and a request to `/health` passes with no hostname at
all. -/
theorem c1_witness :
    dispatch "example.com".toList "/v1/sources"
        (Option.some ("tenant".toList ++ '.' :: "example.com".toList))
      = ExtractorResult.proceed (Option.some "tenant".toList)
    ∧ dispatch "example.com".toList "/v1/sources" (Option.some "tenant".toList)
        = ExtractorResult.notFound "ApplicationMissing" "Application id not found."
    ∧ dispatch "example.com".toList "/health" Option.none
        = ExtractorResult.proceed Option.none := by
  refine ⟨c1_tenant_routing.1 _ _ _ (by decide) (by decide) (by decide),
    c1_tenant_routing.2.2.1 _ _ _ (by decide) ?_,
    c1_tenant_routing.2.2.2 _ _ _ (by decide)⟩
  rintro ⟨t, -, -, hf | hf⟩ <;>
    exact absurd (hf ▸ List.mem_append_right t (List.mem_cons_self '.' _) : '.' ∈ "tenant".toList)
      (by decide)

/-- C2: the code at the failing input.  For a non-allow-listed path with the
hostname absent, `dispatch` reaches `self.pattern.match(None)`, which raises
`TypeError` — not the typed `ApplicationMissing` not-found error the claim
(and the spec) require. -/
theorem c2_missing_host_type_error :
    dispatch "example.com".toList "/v1/sources" Option.none = ExtractorResult.typeError := by
  decide

/-! ## Helper lemmas about headers, the logger and the middleware -/

theorem lookup_setHeader (hs : List (String × String)) (k v : String) :
    List.lookup k (setHeader hs k v) = Option.some v := by
  unfold setHeader
  split
  · rename_i hany
    induction hs with
    | nil => simp at hany
    | cons p ps ih =>
      obtain ⟨pk, pv⟩ := p
      by_cases hp : pk = k
      · simp [List.map_cons, if_pos hp, List.lookup_cons_self]
      · have hps : ps.any (fun q => q.1 = k) = true := by
          simpa [List.any_cons, hp] using hany
        have hk : (k == pk) = false := beq_eq_false_iff_ne.mpr (Ne.symm hp)
        simp only [List.map_cons, if_neg hp, List.lookup_cons, hk]
        exact ih hps
  · rename_i hany
    induction hs with
    | nil => simp
    | cons p ps ih =>
      obtain ⟨pk, pv⟩ := p
      have hp : ¬ pk = k := by
        intro hh
        exact hany (by simp [List.any_cons, hh])
      have hps : ¬ ps.any (fun q => q.1 = k) = true := by
        intro hh
        exact hany (by simp [List.any_cons, hh])
      have hk : (k == pk) = false := beq_eq_false_iff_ne.mpr (Ne.symm hp)
      simp only [List.cons_append, List.lookup_cons, hk]
      exact ih hps

/-! ## Helper lemma about the populated detail dictionary -/

theorem isNone_str (s : List Char) : isNone (PyVal.str s) = false := rfl

theorem isNone_noneVal : isNone PyVal.none = true := rfl

theorem populateDetail_ok (serviceName : String) (req : Request) (payload : PyVal)
    (fp : PyVal) (hfp : formatPayload payload = Except.ok fp) :
    populateDetail serviceName req payload = Except.ok
      [("service_name", PyVal.str serviceName.toList),
       ("target", PyVal.str (req.method ++ " " ++ req.url).toList),
       ("payload", fp),
       ("x-forwarded-for", headerVal req "x-forwarded-for"),
       ("request_id", headerVal req "request_id")] := by
  rw [populateDetail, hfp]
  rfl

theorem loggerInfo_messages (s : String) (req : Request) (p : PyVal) (msg : String)
    (evs : List LogEvent) (h : loggerInfo s req p msg = Except.ok evs)
    (hpath : req.path ≠ "/openapi.json") : evs.map LogEvent.message = [msg] := by
  rw [loggerInfo, if_neg hpath] at h
  cases hfp : formatPayload p with
  | error m =>
    rw [populateDetail, hfp] at h
    exact absurd h (by simp [Except.map])
  | ok fp =>
    rw [populateDetail_ok s req p fp hfp] at h
    simp only [Except.map] at h
    obtain rfl := Except.ok.inj h
    rfl

theorem loggerInfo_dict_ok (s : String) (req : Request) (d : List (String × PyVal))
    (msg : String) : ∃ evs, loggerInfo s req (PyVal.dict d) msg = Except.ok evs := by
  rw [loggerInfo]
  split
  · exact ⟨[], rfl⟩
  · exact ⟨[⟨msg,
      [("service_name", PyVal.str s.toList),
       ("target", PyVal.str (req.method ++ " " ++ req.url).toList),
       ("payload", PyVal.dict (d.map (fun p => (p.1, formatEntry p.1 p.2)))),
       ("x-forwarded-for", headerVal req "x-forwarded-for"),
       ("request_id", headerVal req "request_id")]⟩],
      by rw [populateDetail_ok s req (PyVal.dict d) _ rfl]; rfl⟩

theorem receivedPhase_messages (prims : PyPrims) (s : String) (req : Request)
    (evs1 : List LogEvent) (h : receivedPhase prims s req = Except.ok evs1)
    (hpath : req.path ≠ "/openapi.json") :
    evs1.map LogEvent.message = ["client_received_request"] := by
  rw [receivedPhase] at h
  cases hs : serializeDataBytes prims (getRequestBody req) with
  | error m =>
    rw [hs] at h
    exact absurd h (by simp [Except.bind])
  | ok ser =>
    rw [hs] at h
    simp only [Except.bind] at h
    exact loggerInfo_messages s req ser _ evs1 h hpath

theorem logResponse_ok_cases (prims : PyPrims) (s : String) (req : Request)
    (resp : Response) (pr : List LogEvent × Response)
    (h : logResponse prims s req resp = Except.ok pr) :
    (∃ ser, inspectBody prims resp.chunks = Except.ok ser
        ∧ loggerInfo s req ser "client_sent_response" = Except.ok pr.1
        ∧ pr.2 = resp)
    ∨ (∃ m, inspectBody prims resp.chunks = Except.error m
        ∧ loggerInfo s req (PyVal.dict (errorEnvelope req m)) "client_sent_response"
            = Except.ok pr.1
        ∧ pr.2 = jsonResponse prims (PyVal.dict (errorEnvelope req m)) 500) := by
  unfold logResponse at h
  split at h
  · rename_i ser hins
    cases hli : loggerInfo s req ser "client_sent_response" with
    | error m => rw [hli] at h; exact absurd h (by simp [Except.map])
    | ok evs =>
      rw [hli] at h
      simp only [Except.map] at h
      obtain rfl := Except.ok.inj h
      exact Or.inl ⟨ser, hins, hli, rfl⟩
  · rename_i m hins
    cases hli : loggerInfo s req (PyVal.dict (errorEnvelope req m)) "client_sent_response" with
    | error m' => rw [hli] at h; exact absurd h (by simp [Except.map])
    | ok evs =>
      rw [hli] at h
      simp only [Except.map] at h
      obtain rfl := Except.ok.inj h
      exact Or.inr ⟨m, hins, hli, rfl⟩

/-- C3: the claim as it fails on the code.  When draining or inspecting the
response body raises, the delivered replacement envelope spells its code key
`errorCode`, not `error_code`: at a concrete failing decode the delivered
500 body has no `error_code` entry at all. -/
theorem c3_counterexample :
    ∃ r, (logRequestRun failingPrims "home-infrastructure" constHandler sampleReq).delivered
        = Option.some r
      ∧ r.status = 500
      ∧ r.jsonContent
          = Option.some (PyVal.dict (errorEnvelope sampleReq "decode error".toList))
      ∧ List.lookup "error_code" (errorEnvelope sampleReq "decode error".toList)
          = Option.none
      ∧ List.lookup "errorCode" (errorEnvelope sampleReq "decode error".toList)
          = Option.some (PyVal.str "InternalServerError".toList) := by
  exact ⟨_, rfl, rfl, rfl, rfl, rfl⟩

/-- C3 (amended): for every request whose received-phase logging completes,
if draining or inspecting the response body raises any error then the
middleware delivers — with no exception escaping — a 500 JSON response whose
envelope carries the key `errorCode` (not `error_code`) with value
`InternalServerError`, and the correlation-id header `request_id` is still
attached to the delivered response. -/
theorem c3_failure_containment (prims : PyPrims) (serviceName : String)
    (handler : Request → Response) (req : Request) {evs1 : List LogEvent} {m : List Char}
    (h1 : receivedPhase prims serviceName req = Except.ok evs1)
    (h2 : inspectBody prims (handler req).chunks = Except.error m) :
    ∃ evs2 r, logRequestRun prims serviceName handler req = RunResult.ok (evs1 ++ evs2) r
      ∧ r.status = 500
      ∧ r.jsonContent = Option.some (PyVal.dict (errorEnvelope req m))
      ∧ List.lookup "request_id" r.headers = Option.some prims.uuid
      ∧ List.lookup "error_code" (errorEnvelope req m) = Option.none
      ∧ List.lookup "errorCode" (errorEnvelope req m)
          = Option.some (PyVal.str "InternalServerError".toList) := by
  obtain ⟨evs2, hevs2⟩ :=
    loggerInfo_dict_ok serviceName req (errorEnvelope req m) "client_sent_response"
  have hlr : logResponse prims serviceName req (handler req)
      = Except.ok (evs2, jsonResponse prims (PyVal.dict (errorEnvelope req m)) 500) := by
    unfold logResponse
    simp only [h2]
    rw [hevs2]
    rfl
  refine ⟨evs2,
    { jsonResponse prims (PyVal.dict (errorEnvelope req m)) 500 with
        headers := setHeader
          (jsonResponse prims (PyVal.dict (errorEnvelope req m)) 500).headers
          "request_id" prims.uuid },
    ?_, rfl, rfl, ?_, rfl, rfl⟩
  · unfold logRequestRun
    rw [h1, hlr]
  · show List.lookup "request_id"
      (setHeader (jsonResponse prims (PyVal.dict (errorEnvelope req m)) 500).headers
        "request_id" prims.uuid) = Option.some prims.uuid
    exact lookup_setHeader _ _ _

/-- Witness for C3 at concrete inputs: with a decoder that always raises,
the sample request is answered by a 500 response carrying the
`request_id` header. -/
theorem c3_witness :
    ∃ evs2 r, logRequestRun failingPrims "svc" constHandler sampleReq
        = RunResult.ok
            ([⟨"client_received_request",
               [("service_name", PyVal.str "svc".toList),
                ("target", PyVal.str "GET http://testserver/test".toList),
                ("payload", PyVal.none),
                ("x-forwarded-for", PyVal.str "1.2.3.4".toList),
                ("request_id", PyVal.str "abcd-1234".toList)]⟩] ++ evs2) r
      ∧ r.status = 500
      ∧ List.lookup "request_id" r.headers = Option.some "test-uuid" := by
  obtain ⟨evs2, r, hrun, hstat, -, hhdr, -, -⟩ :=
    c3_failure_containment failingPrims "svc" constHandler sampleReq rfl rfl
  exact ⟨evs2, r, hrun, hstat, hhdr⟩

/-- C4: the claim as it fails on the code.  `Logger.info` is suppressed for
the path `/openapi.json`, so a successful request there emits zero log
events, not the two the claim requires. -/
theorem c4_counterexample :
    (logRequestRun okPrims "home-infrastructure" constHandler openapiReq).events = []
    ∧ (logRequestRun okPrims "home-infrastructure" constHandler openapiReq).delivered.isSome
        = true := by
  exact ⟨rfl, rfl⟩

/-- C4 (amended): for every request whose path is not `/openapi.json` whose
request- and response-phase logging completes without a raised exception and
whose handler succeeds, exactly the two log events
`[client_received_request, client_sent_response]` are emitted in that order,
and — whenever the response-body inspection itself succeeded — the chunk
sequence of the delivered response is exactly the handler's chunk
sequence. -/
theorem c4_ordering_and_chunks (prims : PyPrims) (serviceName : String)
    (handler : Request → Response) (req : Request) {evs1 : List LogEvent}
    {pr : List LogEvent × Response}
    (hpath : req.path ≠ "/openapi.json")
    (h1 : receivedPhase prims serviceName req = Except.ok evs1)
    (h2 : logResponse prims serviceName req (handler req) = Except.ok pr) :
    ∃ r, logRequestRun prims serviceName handler req = RunResult.ok (evs1 ++ pr.1) r
      ∧ (evs1 ++ pr.1).map LogEvent.message
          = ["client_received_request", "client_sent_response"]
      ∧ ((inspectBody prims (handler req).chunks).isOk = true →
          r.chunks = (handler req).chunks) := by
  obtain ⟨evs2, resp⟩ := pr
  refine ⟨{ resp with headers := setHeader resp.headers "request_id" prims.uuid }, ?_, ?_, ?_⟩
  · unfold logRequestRun
    rw [h1, h2]
  · rw [List.map_append, receivedPhase_messages prims serviceName req evs1 h1 hpath]
    rcases logResponse_ok_cases prims serviceName req (handler req) (evs2, resp) h2 with
      ⟨ser, -, hli, -⟩ | ⟨m, -, hli, -⟩ <;>
      rw [loggerInfo_messages serviceName req _ _ _ hli hpath] <;> rfl
  · intro hok
    rcases logResponse_ok_cases prims serviceName req (handler req) (evs2, resp) h2 with
      ⟨ser, hins, -, hresp⟩ | ⟨m, hins, -, hresp⟩
    · rw [show resp = handler req from hresp]
    · rw [hins] at hok
      exact absurd hok (by simp [Except.isOk, Except.toBool])

/-- Witness for C4 at concrete inputs: the sample request through the
succeeding constant handler emits exactly the received and sent events in
order, and the delivered chunks are the handler's. -/
theorem c4_witness :
    (logRequestRun okPrims "home-infrastructure" constHandler sampleReq).events.map
        LogEvent.message = ["client_received_request", "client_sent_response"]
    ∧ ∃ r, (logRequestRun okPrims "home-infrastructure" constHandler sampleReq).delivered
        = Option.some r ∧ r.chunks = plainResp.chunks := by
  obtain ⟨r, hrun, hmsg, hchunks⟩ :=
    c4_ordering_and_chunks okPrims "home-infrastructure" constHandler sampleReq
      (by decide) rfl rfl
  refine ⟨?_, r, ?_, hchunks rfl⟩
  · rw [hrun]
    exact hmsg
  · rw [hrun]
    rfl

/-- C7: the claim as it fails on the code.  The emitted `target` string is
built from the full request URL (`str(request.url)`), so for `GET` on
`http://testserver/test` it is `"GET http://testserver/test"` and not the
`"METHOD path"` string `"GET /test"` the claim names. -/
theorem c7_counterexample :
    ∃ d, populateDetail "home-infrastructure" sampleReq PyVal.none = Except.ok d
      ∧ List.lookup "target" (extractEntries d)
          = Option.some (PyVal.str "GET http://testserver/test".toList)
      ∧ PyVal.str "GET http://testserver/test".toList ≠ PyVal.str "GET /test".toList := by
  refine ⟨_, rfl, rfl, ?_⟩
  intro hcontra
  exact absurd (PyVal.str.inj hcontra) (by decide)

/-- C7 (amended): every emission's detail mapping, after the formatter drops
valueless fields, contains the service name, the target string
`"METHOD full-URL"` (not `"METHOD path"`), the sanitized payload when it is
not `None`, the `x-forwarded-for` header value when that header is present,
and the `request_id` header value when that header is present; each of these
fields is omitted entirely — not emitted as null — when it has no value. -/
theorem c7_detail_fields (serviceName : String) (req : Request) (payload : PyVal)
    (d : List (String × PyVal)) (hd : populateDetail serviceName req payload = Except.ok d) :
    List.lookup "service_name" (extractEntries d)
        = Option.some (PyVal.str serviceName.toList)
    ∧ List.lookup "target" (extractEntries d)
        = Option.some (PyVal.str (req.method ++ " " ++ req.url).toList)
    ∧ (∀ fp, formatPayload payload = Except.ok fp → isNone fp = false →
        List.lookup "payload" (extractEntries d) = Option.some (extractValue fp))
    ∧ (formatPayload payload = Except.ok PyVal.none →
        List.lookup "payload" (extractEntries d) = Option.none)
    ∧ (∀ v, List.lookup "x-forwarded-for" req.headers = Option.some v →
        List.lookup "x-forwarded-for" (extractEntries d)
          = Option.some (PyVal.str v.toList))
    ∧ (List.lookup "x-forwarded-for" req.headers = Option.none →
        List.lookup "x-forwarded-for" (extractEntries d) = Option.none)
    ∧ (∀ v, List.lookup "request_id" req.headers = Option.some v →
        List.lookup "request_id" (extractEntries d) = Option.some (PyVal.str v.toList))
    ∧ (List.lookup "request_id" req.headers = Option.none →
        List.lookup "request_id" (extractEntries d) = Option.none) := by
  cases hfp : formatPayload payload with
  | error m =>
    rw [populateDetail, hfp] at hd
    exact absurd hd (by simp [Except.map])
  | ok fp =>
    have hd' := populateDetail_ok serviceName req payload fp hfp
    rw [hd] at hd'
    obtain rfl : d = _ := Option.some.inj (congrArg Except.toOption hd')
    refine ⟨?_, ?_, ?_, ?_, ?_, ?_, ?_, ?_⟩
    · simp [extractEntries, isNone_str, extractValue, List.lookup]
    · simp [extractEntries, isNone_str, extractValue, List.lookup]
    · intro fp' hfp' hnn
      obtain rfl : fp = fp' := Except.ok.inj hfp'
      simp [extractEntries, isNone_str, extractValue, List.lookup, hnn]
    · intro hnone
      obtain rfl : fp = PyVal.none := Except.ok.inj hnone
      cases hx : List.lookup "x-forwarded-for" req.headers <;>
        cases hr : List.lookup "request_id" req.headers <;>
          simp [extractEntries, isNone_str, isNone_noneVal, extractValue, List.lookup,
            headerVal, hx, hr]
    · intro v hv
      cases hnn : isNone fp <;>
        simp [extractEntries, isNone_str, extractValue, List.lookup, headerVal, hv, hnn]
    · intro hv
      cases hnn : isNone fp <;>
        cases hr : List.lookup "request_id" req.headers <;>
          simp [extractEntries, isNone_str, isNone_noneVal, extractValue, List.lookup,
            headerVal, hv, hr, hnn]
    · intro v hv
      cases hnn : isNone fp <;>
        cases hx : List.lookup "x-forwarded-for" req.headers <;>
          simp [extractEntries, isNone_str, isNone_noneVal, extractValue, List.lookup,
            headerVal, hv, hx, hnn]
    · intro hv
      cases hnn : isNone fp <;>
        cases hx : List.lookup "x-forwarded-for" req.headers <;>
          simp [extractEntries, isNone_str, isNone_noneVal, extractValue, List.lookup,
            headerVal, hv, hx, hnn]

/-- Witness for C7 at concrete inputs: for the sample request with a `None`
payload the emitted detail keeps the service name and both header-derived
fields and omits the payload field entirely. -/
theorem c7_witness :
    ∃ d, populateDetail "test-service" sampleReq PyVal.none = Except.ok d
      ∧ List.lookup "service_name" (extractEntries d)
          = Option.some (PyVal.str "test-service".toList)
      ∧ List.lookup "payload" (extractEntries d) = Option.none
      ∧ List.lookup "x-forwarded-for" (extractEntries d)
          = Option.some (PyVal.str "1.2.3.4".toList)
      ∧ List.lookup "request_id" (extractEntries d)
          = Option.some (PyVal.str "abcd-1234".toList) := by
  refine ⟨_, rfl, ?_, ?_, ?_, ?_⟩
  · exact (c7_detail_fields "test-service" sampleReq PyVal.none _ rfl).1
  · exact (c7_detail_fields "test-service" sampleReq PyVal.none _ rfl).2.2.2.1 rfl
  · exact (c7_detail_fields "test-service" sampleReq PyVal.none _ rfl).2.2.2.2.1 "1.2.3.4" rfl
  · exact (c7_detail_fields "test-service" sampleReq PyVal.none _ rfl).2.2.2.2.2.2.1 "abcd-1234" rfl

/-- C8: the claim as it fails on the code.  A request with no `content-type`
header at all — which does not indicate a multipart upload — still has its
body recorded as unavailable, because `_get_request_body` requires a truthy
content type before reading the body. -/
theorem c8_counterexample :
    getRequestBody noCTReq = Option.none
    ∧ List.lookup "content-type" noCTReq.headers = Option.none
    ∧ noCTReq.body ≠ [] := by
  exact ⟨rfl, rfl, by decide⟩

/-- C8 (amended): the request body is read into memory exactly when a
`content-type` header is present and its media type (the part before any
`;`) is non-empty and differs from `multipart/form-data`; when the header is
absent, empty, or multipart, the body is recorded as unavailable; and the
captured bytes are logged as their `json.loads` value, as `null` when
parsing fails with `JSONDecodeError`, and as `null` when the body is empty
or was not captured. -/
theorem c8_body_capture :
    (∀ (req : Request) (ct : String),
        List.lookup "content-type" req.headers = Option.some ct →
        mediaType ct ≠ [] → mediaType ct ≠ "multipart/form-data".toList →
        getRequestBody req = Option.some req.body)
    ∧ (∀ (req : Request) (ct : String),
        List.lookup "content-type" req.headers = Option.some ct →
        (mediaType ct = [] ∨ mediaType ct = "multipart/form-data".toList) →
        getRequestBody req = Option.none)
    ∧ (∀ req : Request, List.lookup "content-type" req.headers = Option.none →
        getRequestBody req = Option.none)
    ∧ (∀ prims : PyPrims, serializeDataBytes prims Option.none = Except.ok PyVal.none)
    ∧ (∀ prims : PyPrims, serializeDataBytes prims (Option.some []) = Except.ok PyVal.none)
    ∧ (∀ (prims : PyPrims) (b : List Nat) (v : PyVal), b ≠ [] →
        prims.loads b = Except.ok v →
        serializeDataBytes prims (Option.some b) = Except.ok v)
    ∧ (∀ (prims : PyPrims) (b : List Nat) (m : List Char), b ≠ [] →
        prims.loads b = Except.error (LoadExc.jsonDecode m) →
        serializeDataBytes prims (Option.some b) = Except.ok PyVal.none) := by
  refine ⟨?_, ?_, ?_, fun _ => rfl, fun _ => rfl, ?_, ?_⟩
  · intro req ct hct hne hmp
    rw [getRequestBody, hct]
    exact if_pos ⟨hne, hmp⟩
  · intro req ct hct hor
    rw [getRequestBody, hct]
    refine if_neg ?_
    rintro ⟨hne, hmp⟩
    rcases hor with h | h
    · exact hne h
    · exact hmp h
  · intro req hct
    rw [getRequestBody, hct]
    rfl
  · intro prims b v hb hv
    rw [serializeDataBytes, if_neg hb, hv]
  · intro prims b m hb hv
    rw [serializeDataBytes, if_neg hb, hv]

/-- Witness for C8 at concrete inputs: the sample request with
`content-type: application/json` has its body captured, and a multipart
request does not. -/
theorem c8_witness :
    getRequestBody sampleReq = Option.some [123, 125]
    ∧ getRequestBody
        { method := "POST", url := "http://testserver/upload", path := "/upload",
          headers := [("content-type", "multipart/form-data")], body := [1, 2] }
      = Option.none := by
  refine ⟨c8_body_capture.1 sampleReq "application/json" rfl (by decide) (by decide), ?_⟩
  exact c8_body_capture.2.1 _ "multipart/form-data" rfl (Or.inr (by decide))

/-- C9: for every typed application error, `exception_handler` logs exactly
one error record (with the logger's default message) and returns a response
whose status is the error's own and whose JSON content is exactly the four
fields `error_code`, `message`, `detail` — each taken verbatim from the
error — and `target` equal to `"METHOD|path"` of the failing request; in
particular the claim's 400 `BadRequest` example on `GET /test` follows by
instantiation. -/
theorem c9_error_envelope (prims : PyPrims) (req : Request) (exc : HTTPErrorModel) :
    ∃ ev r, exceptionHandler prims req exc = Except.ok ([ev], r)
      ∧ ev.message = "event"
      ∧ r.status = exc.httpStatus
      ∧ r.jsonContent = Option.some (PyVal.dict
          [("error_code", PyVal.str exc.errorCode.toList),
           ("message", PyVal.str exc.message.toList),
           ("detail", exc.detail),
           ("target", PyVal.str (req.method ++ "|" ++ req.path).toList)]) := by
  exact ⟨_, _, rfl, rfl, rfl, rfl⟩
